import Mathlib

set_option maxRecDepth 20000

/-!
Verification development for the PMDA 添付文書 download tool
(`pmda_tool_with_settings.py`).

The Python source is shallowly embedded below.  Pure string manipulation is
translated to total Lean functions over `String` / `List Char`; network and
filesystem effects are made explicit: HTTP fetches become `Except`-valued
oracles passed as parameters, the filesystem becomes an explicit map from
paths to file contents, and the cooperative cancellation flag becomes a
Boolean stream indexed by the number of checkpoint reads performed so far.
Python `None` is modelled by `Option.none`, and Python code that can raise
is modelled in the `Except` monad.

Python string primitives used by the source (`str.replace`, `str.strip`,
`str.split`) are defined from scratch with structural recursion so that all
definitions evaluate by `decide` / `rfl`.
-/

deriving instance DecidableEq for Except

/-! ## Python string primitives -/

/-- Drop trailing characters satisfying `p` (the right half of Python `str.strip`). -/
def dropTrailWhile (p : Char → Bool) (l : List Char) : List Char :=
  (l.reverse.dropWhile p).reverse

/-- Python `s.strip()` — remove leading and trailing whitespace. -/
def stripWS (s : String) : String :=
  String.mk (dropTrailWhile Char.isWhitespace (s.data.dropWhile Char.isWhitespace))

/-- Python `s.strip("/")` — remove leading and trailing slashes. -/
def stripSlashes (s : String) : String :=
  String.mk (dropTrailWhile (fun c => c == '/') (s.data.dropWhile (fun c => c == '/')))

/-- Python substring test `needle in hay` on character lists. -/
def containsS (needle : List Char) : List Char → Bool
  | [] => needle.isEmpty
  | c :: rest => needle.isPrefixOf (c :: rest) || containsS needle rest

/-- Worker for `pyRemoveAll`: scans left to right, removing every
non-overlapping occurrence of `pat`.  The `Nat` argument is fuel; it is
always instantiated with the length of the scanned list, which suffices
because every step consumes at least one character (for nonempty `pat`). -/
def removeAllFuel (pat : List Char) : Nat → List Char → List Char
  | _, [] => []
  | 0, s => s
  | n + 1, c :: rest =>
    if pat.isPrefixOf (c :: rest) then removeAllFuel pat n (List.drop pat.length (c :: rest))
    else c :: removeAllFuel pat n rest

/-- Python `s.replace(pat, "")`: removes every (non-overlapping, leftmost-first)
occurrence of `pat` anywhere in `s`.  For an empty pattern Python's
`s.replace("", "")` returns `s` unchanged. -/
def pyRemoveAll (pat s : String) : String :=
  if pat = "" then s else String.mk (removeAllFuel pat.data s.data.length s.data)

/-- Python `s.split("/")`: splits at every slash, keeping empty segments;
the empty string yields `[""]`. -/
def splitSlash : List Char → List (List Char)
  | [] => [[]]
  | c :: rest =>
    if c == '/' then [] :: splitSlash rest
    else
      match splitSlash rest with
      | [] => [[c]]
      | g :: gs => (c :: g) :: gs

/-! ## Constants from the source -/

/-- `SECTION_LISTED = '掲載'` -/
def SECTION_LISTED : String := "掲載"

/-- `SECTION_DELETED = '削除'` -/
def SECTION_DELETED : String := "削除"

/-- `PDF_EXTENSION = '.pdf'` -/
def PDF_EXTENSION : String := ".pdf"

/-- The default `detail_base_url` setting. -/
def PMDA_DETAIL_BASE : String := "https://www.info.pmda.go.jp"

/-! ## URL deriver -/

/-- The segment-decomposition and recomposition step shared by
`convert_detail_url_to_pdf` and the specification's reading of it: strip
leading/trailing slashes from `path`, split on `/`, and if at least four
segments remain with the first two equal to `ygo` and `pack`, compose
`base + "/ygo/pdf/" + seg2 + "_" + seg3 + "/"`, else the empty string. -/
def pdfFromPath (detail_base_url : String) (path : String) : String :=
  match (splitSlash (stripSlashes path).data).map String.mk with
  | a :: b :: c :: d :: _ =>
    if a = "ygo" ∧ b = "pack" then
      detail_base_url ++ "/" ++ "ygo/pdf" ++ "/" ++ c ++ "_" ++ d ++ "/"
    else ""
  | _ => ""

/-- `convert_detail_url_to_pdf` from the source.  Note the source computes
`path = detail_url.replace(app_settings.detail_base_url, "")`, i.e. Python
`str.replace`, which removes every occurrence of the base, not only a
leading prefix. -/
def convert_detail_url_to_pdf (detail_base_url : String) (detail_url : String) : String :=
  if detail_url = "" then ""
  else pdfFromPath detail_base_url (pyRemoveAll detail_base_url detail_url)

/-- `detailToPdf` exactly as the specification words it: "strip a configured
base prefix from detailUrl" — the base is removed once, and only when it is
a leading prefix of the input; the rest of the computation is the shared
`pdfFromPath`.  Used to compare the specified behaviour with the source's
`replace`-based behaviour. -/
def detailToPdf_spec (detail_base_url : String) (detail_url : String) : String :=
  if detail_url = "" then ""
  else
    let path :=
      if detail_base_url.data.isPrefixOf detail_url.data then
        String.mk (detail_url.data.drop detail_base_url.data.length)
      else detail_url
    pdfFromPath detail_base_url path

example : convert_detail_url_to_pdf PMDA_DETAIL_BASE
    (PMDA_DETAIL_BASE ++ "/ygo/pack/123/456/index.html")
    = PMDA_DETAIL_BASE ++ "/ygo/pdf/123_456/" := by decide

example : detailToPdf_spec PMDA_DETAIL_BASE
    (PMDA_DETAIL_BASE ++ "/ygo/pack/123/456/index.html")
    = PMDA_DETAIL_BASE ++ "/ygo/pdf/123_456/" := by decide

example : convert_detail_url_to_pdf PMDA_DETAIL_BASE "" = "" := by decide

example : convert_detail_url_to_pdf PMDA_DETAIL_BASE
    (PMDA_DETAIL_BASE ++ PMDA_DETAIL_BASE ++ "/ygo/pack/1/2")
    = PMDA_DETAIL_BASE ++ "/ygo/pdf/1_2/" := by decide

example : detailToPdf_spec PMDA_DETAIL_BASE
    (PMDA_DETAIL_BASE ++ PMDA_DETAIL_BASE ++ "/ygo/pack/1/2") = "" := by decide

/-! ## Listing Fetcher (`scrape_date`)

The HTML page is modelled pre-parsed: a page is the list of its `<table>`
elements; for each table we record the text of its nearest preceding
`<h2>` (`prevH2`, `none` when there is none) and its `<tr>` rows, each a
list of `<td>` cells.  A cell carries its stripped-text content and the
optional embedded `<a>` link as (link text, `href` attribute value, which
Python reads with `name_link.get('href', '')`).  Network fetches are an
`Except`-valued oracle keyed by the requested URL; the per-row detail-page
enrichment (`fetch_approval_number`, which catches its own failures and
returns a pair of strings) is an oracle `String → String × String`; the
cancellation callback `cancel_check` is a Boolean stream read once per
checkpoint, indexed by the number of checkpoint reads made so far. -/

structure HCell where
  text : String
  link : Option (String × String)
deriving DecidableEq

structure HRow where
  cells : List HCell
deriving DecidableEq

structure HTable where
  prevH2 : Option String
  rows : List HRow
deriving DecidableEq

structure Page where
  tables : List HTable
deriving DecidableEq

/-- The two settings the core reads (`app_settings.base_url`,
`app_settings.detail_base_url`). -/
structure Config where
  base_url : String
  detail_base_url : String
deriving DecidableEq

/-- One row of the collected table.  Field names follow the spec's
ListingRecord; `sectionName` stands for the source's `区分` field (the
word `section` itself is a Lean keyword). -/
structure ListingRecord where
  date : String
  sectionName : String
  productName : String
  companyName : String
  reason : String
  approvalNumber : String
  certificationNumber : String
  detailUrl : String
  pdfUrl : String
deriving DecidableEq

/-- The per-table section classification step of `scrape_date`:

    prev_h2 = table.find_previous('h2')
    if prev_h2:
        if '掲載分' in prev_h2.get_text(): current_section = SECTION_LISTED
        elif '削除分' in prev_h2.get_text(): current_section = SECTION_DELETED

Note that when the heading contains neither marker (or there is no
heading), `current_section` keeps its previous value. -/
def classifyStep (cur : Option String) (t : HTable) : Option String :=
  match t.prevH2 with
  | some h =>
    if containsS "掲載分".data h.data then some SECTION_LISTED
    else if containsS "削除分".data h.data then some SECTION_DELETED
    else cur
  | none => cur

/-- The row loop of `scrape_date` for one classified table.  Returns the
extended accumulator, the next cancellation-checkpoint index, and whether a
cancellation checkpoint fired (in which case the source returns the
accumulated `results` immediately from the whole function). -/
def scrapeRowsAux (cfg : Config) (fetch_numbers : Bool) (enrich : String → String × String)
    (cancel : Nat → Bool) (date_str sectionName : String) :
    List HRow → List ListingRecord → Nat → List ListingRecord × Nat × Bool
  | [], acc, k => (acc, k, false)
  | row :: rest, acc, k =>
    if cancel k = false then (acc, k + 1, true)
    else
      match row.cells with
      | c0 :: c1 :: c2 :: _ =>
        let pn_det : String × String :=
          match c0.link with
          | some (t, href) => (stripWS t, cfg.detail_base_url ++ href)
          | none => (stripWS c0.text, "")
        let product_name := pn_det.1
        let detail_url := pn_det.2
        let company := pyRemoveAll "製造販売／" (stripWS c1.text)
        let reason := stripWS c2.text
        let pdf_url := convert_detail_url_to_pdf cfg.detail_base_url detail_url
        if fetch_numbers ∧ detail_url ≠ "" ∧ sectionName = SECTION_LISTED then
          if cancel (k + 1) = false then (acc, k + 2, true)
          else
            let nums := enrich detail_url
            let acc' :=
              if product_name ≠ "" ∧ product_name ≠ "販売名" then
                acc ++ [⟨date_str, sectionName, product_name, company, reason,
                         nums.1, nums.2, detail_url, pdf_url⟩]
              else acc
            scrapeRowsAux cfg fetch_numbers enrich cancel date_str sectionName rest acc' (k + 2)
        else
          let acc' :=
            if product_name ≠ "" ∧ product_name ≠ "販売名" then
              acc ++ [⟨date_str, sectionName, product_name, company, reason,
                       "", "", detail_url, pdf_url⟩]
            else acc
          scrapeRowsAux cfg fetch_numbers enrich cancel date_str sectionName rest acc' (k + 1)
      | _ => scrapeRowsAux cfg fetch_numbers enrich cancel date_str sectionName rest acc (k + 1)

/-- The table loop of `scrape_date`: thread `current_section` through
`classifyStep`; a table whose running section is `None` is skipped
(`continue`); otherwise its rows are scraped, and a fired cancellation
checkpoint returns the accumulated results immediately. -/
def scrapeTablesAux (cfg : Config) (fetch_numbers : Bool) (enrich : String → String × String)
    (cancel : Nat → Bool) (date_str : String) :
    List HTable → Option String → List ListingRecord → Nat → List ListingRecord
  | [], _, acc, _ => acc
  | t :: rest, cur, acc, k =>
    match classifyStep cur t with
    | none => scrapeTablesAux cfg fetch_numbers enrich cancel date_str rest none acc k
    | some sec =>
      let r := scrapeRowsAux cfg fetch_numbers enrich cancel date_str sec t.rows acc k
      if r.2.2 then r.1
      else scrapeTablesAux cfg fetch_numbers enrich cancel date_str rest (some sec) r.1 r.2.1

/-- `scrape_date` from the source: fetch `base_url + date_str.replace("-", "")`;
a network or parse failure of the whole page is caught and yields `[]`;
otherwise the tables are scanned as above starting with no current section. -/
def scrape_date (cfg : Config) (fetch : String → Except String Page) (fetch_numbers : Bool)
    (enrich : String → String × String) (cancel : Nat → Bool) (date_str : String) :
    List ListingRecord :=
  match fetch (cfg.base_url ++ pyRemoveAll "-" date_str) with
  | Except.error _ => []
  | Except.ok page => scrapeTablesAux cfg fetch_numbers enrich cancel date_str page.tables none [] 0

/-! ## Collection Orchestrator (`ScrapeTab._collect_data`)

    for i, date_str in enumerate(dates, 1):
        if not self.is_running: break
        results = scrape_date(date_str, ...)
        all_results.extend(results)

`running i` is the value of `self.is_running` at the `i`-th loop-head
check (0-based); the per-date scrape is an oracle. -/

def collect_data_aux {α : Type} (scrape : String → List α) (running : Nat → Bool) :
    List String → Nat → List α → List α
  | [], _, acc => acc
  | d :: rest, i, acc =>
    if running i then collect_data_aux scrape running rest (i + 1) (acc ++ scrape d)
    else acc

/-- `_collect_data`: process the date list in order, stopping at the first
loop-head check where the running flag is cleared, accumulating the scraped
records of the processed dates in order. -/
def collect_data {α : Type} (scrape : String → List α) (running : Nat → Bool)
    (dates : List String) : List α :=
  collect_data_aux scrape running dates 0 []

/-! ## Tabular Store (`save_results` and CSV reading)

The `csv` standard-library codec is modelled at the rows-of-cells level: a
CSV file is its list of rows, each row a list of cell strings (the
character-level quoting performed by `csv.writer`/`csv.reader` is an
external library that round-trips arbitrary cell strings, so it is
abstracted as the identity transport on cell lists).  `csv.DictWriter` with
the fixed `fieldnames` writes the header row and one cell row per record in
field order; `csv.DictReader` turns each data row into a dict keyed by the
file's own header row, where cells missing from a short row are filled with
the `restval` default `None` — modelled as `Option.none`, a dict value
being `Option String` (`none` = Python `None`). -/

/-- The fixed CSV column order of `save_results`. -/
def CSV_FIELDNAMES : List String :=
  ["日付", "区分", "販売名", "企業名", "理由", "承認番号", "認証番号", "詳細URL", "PDF_URL"]

/-- One record's cells, in `CSV_FIELDNAMES` order (what `csv.DictWriter.writerow`
emits for the dict built in `scrape_date`). -/
def recordToCells (r : ListingRecord) : List String :=
  [r.date, r.sectionName, r.productName, r.companyName, r.reason,
   r.approvalNumber, r.certificationNumber, r.detailUrl, r.pdfUrl]

/-- `save_results`: header row first, then one row per record, in order. -/
def save_results (results : List ListingRecord) : List (List String) :=
  CSV_FIELDNAMES :: results.map recordToCells

/-- A row as produced by `csv.DictReader`: header name ↦ cell value, where a
value of `none` is Python `None` (the `restval` filler for short rows). -/
abbrev DRow := List (String × Option String)

/-- `csv.DictReader`'s per-row dict: zip the header with the row's cells;
header names beyond the row's length are bound to `None`; surplus cells
(bound to the non-string `restkey`) are never consulted by the tool and are
dropped. -/
def dictReaderRow : List String → List String → DRow
  | [], _ => []
  | h :: hs, [] => (h, none) :: dictReaderRow hs []
  | h :: hs, c :: cs => (h, some c) :: dictReaderRow hs cs

/-- `list(csv.DictReader(f))`: the first row of the file is the header, each
later row becomes a dict. -/
def dictReaderFile : List (List String) → List DRow
  | [] => []
  | header :: dataRows => dataRows.map (dictReaderRow header)

/-- Python `row.get(k, default)` on a `DictReader` row: the stored value
(possibly `None`) when the key is present, else the default. -/
def pyGet (r : DRow) (k : String) (default : Option String) : Option String :=
  match r.lookup k with
  | some v => v
  | none => default

/-- Reading one written record back from its `DictReader` dict, field by
field (header-driven lookup; an absent value reads as the empty string). -/
def readRecord (r : DRow) : ListingRecord :=
  ⟨(pyGet r "日付" (some "")).getD "", (pyGet r "区分" (some "")).getD "",
   (pyGet r "販売名" (some "")).getD "", (pyGet r "企業名" (some "")).getD "",
   (pyGet r "理由" (some "")).getD "", (pyGet r "承認番号" (some "")).getD "",
   (pyGet r "認証番号" (some "")).getD "", (pyGet r "詳細URL" (some "")).getD "",
   (pyGet r "PDF_URL" (some "")).getD ""⟩

example :
    (dictReaderFile (save_results [⟨"2024-01-15", "掲載", "P", "C", "R", "A", "N", "u", "p"⟩])).map
      readRecord = [⟨"2024-01-15", "掲載", "P", "C", "R", "A", "N", "u", "p"⟩] := by decide

/-! ## Filter Loader (`load_hospital_device_list`)

    for col in fieldnames:
        if '承認番号' in col: approval_col = col
        if '認証番号' in col: certification_col = col
    for row in reader:
        if approval_col and row.get(approval_col): approval_numbers.add(row[approval_col].strip())
        if certification_col and row.get(certification_col): certification_numbers.add(...)

Python sets become `Finset String`.  Note the column scan has no `break`:
each matching column name overwrites the previous one. -/

/-- The source's column scan: fold over the header, remembering the most
recently seen column whose name contains `marker` as a substring. -/
def findCol (marker : String) (fieldnames : List String) : Option String :=
  fieldnames.foldl (fun acc col => if containsS marker.data col.data then some col else acc) none

/-- Add one row's value of the selected column (when the column was found
and the value is truthy, i.e. neither `None` nor empty) to the set, after
stripping whitespace. -/
def addColValue (colOpt : Option String) (r : DRow) (s : Finset String) : Finset String :=
  match colOpt with
  | none => s
  | some col =>
    match pyGet r col none with
    | some v => if v ≠ "" then insert (stripWS v) s else s
    | none => s

/-- The row pass shared by `load_hospital_device_list` and its last-match
characterization: build the two identifier sets using the two given column
selections. -/
def hospitalSetsWith (approval_col certification_col : Option String) (header : List String)
    (dataRows : List (List String)) : Finset String × Finset String :=
  dataRows.foldl
    (fun acc cells =>
      let r := dictReaderRow header cells
      (addColValue approval_col r acc.1, addColValue certification_col r acc.2))
    (∅, ∅)

/-- `load_hospital_device_list`: select the approval/certification columns
per the source's overwrite scan, then build the two sets.  (An input with
no header row is degenerate — Python's `DictReader` would yield no
fieldnames — and gives two empty sets.) -/
def load_hospital_device_list (fileRows : List (List String)) : Finset String × Finset String :=
  match fileRows with
  | [] => (∅, ∅)
  | header :: dataRows =>
    hospitalSetsWith (findCol "承認番号" header) (findCol "認証番号" header) header dataRows

/-- The same loader with the column selection spelled out explicitly as the
LAST matching header name, used to characterize `findCol`. -/
def load_hospital_device_list_lastCol (fileRows : List (List String)) :
    Finset String × Finset String :=
  match fileRows with
  | [] => (∅, ∅)
  | header :: dataRows =>
    hospitalSetsWith ((header.filter fun c => containsS "承認番号".data c.data).getLast?)
      ((header.filter fun c => containsS "認証番号".data c.data).getLast?) header dataRows

/-! ## Download Orchestrator: target selection (`_load_and_filter_targets`)

    targets = [r for r in rows if r.get('区分') == SECTION_LISTED and r.get('PDF_URL')]
    if use_filter:
        for r in targets:
            an = r.get('承認番号', '').strip()
            cn = r.get('認証番号', '').strip()
            if (an and an in target_approvals) or (cn and cn in target_certs): filtered.append(r)

`r.get('承認番号', '')` returns the stored value when the key is present —
including the `None` restval of a short row, on which `.strip()` raises
`AttributeError`.  The filter pass is therefore modelled in `Except`. -/

/-- Truthiness of a `DictReader` value: `None` and the empty string are falsy. -/
def truthyOpt : Option String → Bool
  | none => false
  | some s => !(s == "")

/-- The list-comprehension pre-filter: `区分` equals `SECTION_LISTED` and
`PDF_URL` is truthy. -/
def basePredB (r : DRow) : Bool :=
  (pyGet r "区分" none == some SECTION_LISTED) && truthyOpt (pyGet r "PDF_URL" none)

/-- The error text stands for the `AttributeError` Python raises when
`.strip()` is called on `None`. -/
def ATTR_NONE_STRIP_ERROR : String := "AttributeError: NoneType object has no attribute strip"

/-- Python `v.strip()` on a `DictReader` value: raises on `None`. -/
def pyStripE : Option String → Except String String
  | some s => Except.ok (stripWS s)
  | none => Except.error ATTR_NONE_STRIP_ERROR

/-- One row's allow-list test: strip both identifier cells (which can
raise), then `(an and an in target_approvals) or (cn and cn in target_certs)`. -/
def matchRowE (ap ce : Finset String) (r : DRow) : Except String Bool :=
  match pyStripE (pyGet r "承認番号" (some "")) with
  | Except.error e => Except.error e
  | Except.ok an =>
    match pyStripE (pyGet r "認証番号" (some "")) with
    | Except.error e => Except.error e
    | Except.ok cn =>
      Except.ok ((an != "" && decide (an ∈ ap)) || (cn != "" && decide (cn ∈ ce)))

/-- The `use_filter` loop over the pre-filtered targets, preserving order
and propagating the first raised error. -/
def filterTargetsE (ap ce : Finset String) : List DRow → Except String (List DRow)
  | [] => Except.ok []
  | r :: rest =>
    match matchRowE ap ce r with
    | Except.error e => Except.error e
    | Except.ok keep =>
      match filterTargetsE ap ce rest with
      | Except.error e => Except.error e
      | Except.ok tail => Except.ok (if keep then r :: tail else tail)

/-- `_load_and_filter_targets`: read the file with `DictReader`, keep the
qualifying rows, and apply the allow-list pass when filtering is enabled. -/
def load_and_filter_targets (fileRows : List (List String)) (use_filter : Bool)
    (ap ce : Finset String) : Except String (List DRow) :=
  let targets := (dictReaderFile fileRows).filter basePredB
  if use_filter then filterTargetsE ap ce targets else Except.ok targets

/-- The crash-free per-row allow-list predicate (trimmed values), used to
characterize `load_and_filter_targets` on well-formed files. -/
def rowMatchesFilter (ap ce : Finset String) (r : DRow) : Bool :=
  let an := stripWS ((pyGet r "承認番号" (some "")).getD "")
  let cn := stripWS ((pyGet r "認証番号" (some "")).getD "")
  (an != "" && decide (an ∈ ap)) || (cn != "" && decide (cn ∈ ce))

/-! ## Download Orchestrator: filenames and the per-file download

    parts = url.strip("/").split("/")
    if parts: return parts[-1]
    ...
    product_name_short = name[:10]; replace each invalid char with '_'
    filename = f"{doc_id}_{product_name_short}.pdf"  (or f"{doc_id}.pdf")

`download_file` streams the body to disk chunk by chunk inside
`with open(save_path, 'wb')`, so the destination file is created (and
partially written) before a mid-stream transport error is caught.  The
filesystem is an explicit map from paths to contents; the HTTP response is
an oracle value whose body is a list of chunk events, each either data or
a transport error raised by `iter_content`. -/

/-- `extract_doc_id_from_url`: the last `/`-segment after stripping outer
slashes (`parts` is never empty, and its last element may be `""`). -/
def extract_doc_id_from_url (url : String) : Option String :=
  ((splitSlash (stripSlashes url).data).map String.mk).getLast?

/-- `invalid_chars = ['\\', '/', ':', '*', '?', '"', '<', '>', '|']` -/
def INVALID_FILENAME_CHARS : List Char :=
  ['\\', '/', ':', '*', '?', '\"', '<', '>', '|']

/-- Python `s.replace(c, '_')` for a single character `c`. -/
def replaceChar (c : Char) (s : String) : String :=
  String.mk (s.data.map fun x => if x = c then '_' else x)

/-- The sanitization loop: `for char in invalid_chars: s = s.replace(char, '_')`. -/
def sanitizeName (s : String) : String :=
  INVALID_FILENAME_CHARS.foldl (fun acc c => replaceChar c acc) s

/-- Python `s[:n]` (by code point). -/
def pyTake (n : Nat) (s : String) : String := String.mk (s.data.take n)

/-- The filename `_download_files` derives for one target row from its
`販売名` and the extracted document id. -/
def makeFilename (name doc_id : String) : String :=
  let product_name_short := sanitizeName (pyTake 10 name)
  if product_name_short ≠ "" then doc_id ++ "_" ++ product_name_short ++ PDF_EXTENSION
  else doc_id ++ PDF_EXTENSION

/-- The filesystem: path ↦ file contents. -/
abbrev FS := String → Option String

def fsWrite (fs : FS) (p : String) (content : String) : FS :=
  fun q => if q = p then some content else fs q

/-- `os.path.exists`. -/
def fsExists (fs : FS) (p : String) : Bool := (fs p).isSome

/-- One event of `response.iter_content`: a data chunk, or the transport
error the iteration raises mid-stream. -/
inductive Chunk
  | chunkData (s : String)
  | chunkFail (msg : String)
deriving DecidableEq

/-- The response to one `requests.get(url, stream=True)` that returned at
all: its status code and body events.  A request that itself raises is an
`Except.error` around this. -/
structure HttpResp where
  status_code : Nat
  chunks : List Chunk
deriving DecidableEq

/-- The body-writing loop of `download_file`: each chunk is appended to the
file; a transport error mid-stream leaves the partially-written file in
place.  `Except.ok ()` stands for the source's `(True, None)` return and
`Except.error msg` for `(False, msg)`. -/
def writeChunks (p : String) : List Chunk → FS → String → Except String Unit × FS
  | [], fs, _ => (Except.ok (), fs)
  | Chunk.chunkData s :: rest, fs, acc => writeChunks p rest (fsWrite fs p (acc ++ s)) (acc ++ s)
  | Chunk.chunkFail m :: _, fs, _ => (Except.error m, fs)

/-- `download_file`: a raised request is caught as a failure with the file
untouched; a non-200 status is a failure with the file untouched; a 200
response opens (creates/truncates) the destination and streams the body. -/
def download_file (resp : Except String HttpResp) (save_path : String) (fs : FS) :
    Except String Unit × FS :=
  match resp with
  | Except.error m => (Except.error m, fs)
  | Except.ok r =>
    if r.status_code = 200 then writeChunks save_path r.chunks (fsWrite fs save_path "") ""
    else (Except.error ("HTTPエラー: " ++ toString r.status_code), fs)

/-- The per-row outcome tally bucket of `_download_files`. -/
inductive Outcome
  | success
  | skipped
  | failed (msg : String)
deriving DecidableEq

/-- The skip-or-download step of `_download_files` for one target row:
when skip-existing is on and the destination exists, count Skipped without
touching the network (`http` is only consulted in the other branch). -/
def processTarget (skip_exist : Bool) (http : String → Except String HttpResp)
    (fs : FS) (save_path url : String) : Outcome × FS :=
  if skip_exist && fsExists fs save_path then (Outcome.skipped, fs)
  else
    match download_file (http url) save_path fs with
    | (Except.ok _, fs') => (Outcome.success, fs')
    | (Except.error m, fs') => (Outcome.failed m, fs')

/-- The page used by the section-carryover counterexample: a first table
under a classifiable 掲載分 heading, then a second table whose nearest
preceding heading (`お知らせ`) contains neither section marker. -/
def c1page : Page :=
  ⟨[⟨some "掲載分", [⟨[⟨"P1", none⟩, ⟨"C1", none⟩, ⟨"R1", none⟩]⟩]⟩,
    ⟨some "お知らせ", [⟨[⟨"P2", none⟩, ⟨"C2", none⟩, ⟨"R2", none⟩]⟩]⟩]⟩

/-! # Helper lemmas -/

theorem removeAllFuel_of_not_contains (pat : List Char) :
    ∀ (fuel : Nat) (s : List Char), s.length ≤ fuel → containsS pat s = false →
      removeAllFuel pat fuel s = s := by
  intro fuel
  induction fuel with
  | zero =>
    intro s hs _
    have hnil : s = [] := List.length_eq_zero.mp (Nat.le_zero.mp hs)
    subst hnil
    rfl
  | succ n ih =>
    intro s hs hc
    cases s with
    | nil => rfl
    | cons c rest =>
      have h2 : pat.isPrefixOf (c :: rest) = false ∧ containsS pat rest = false := by
        simpa [containsS, Bool.or_eq_false_iff] using hc
      simp only [removeAllFuel, h2.1, Bool.false_eq_true, if_false]
      rw [ih rest (Nat.le_of_succ_le_succ hs) h2.2]

theorem pyRemoveAll_prefix_once (base rest : String) (hb : base ≠ "")
    (hc : containsS base.data rest.data = false) :
    pyRemoveAll base (base ++ rest) = rest := by
  cases hd : base.data with
  | nil =>
    exact absurd (String.ext (hd.trans rfl)) hb
  | cons b0 btl =>
    unfold pyRemoveAll
    rw [if_neg hb, String.data_append, hd]
    have hstep :
        removeAllFuel (b0 :: btl) ((b0 :: btl) ++ rest.data).length ((b0 :: btl) ++ rest.data)
          = removeAllFuel (b0 :: btl) ((btl ++ rest.data).length) rest.data := by
      simp only [List.cons_append, List.length_cons, removeAllFuel]
      rw [if_pos]
      · exact congrArg (removeAllFuel (b0 :: btl) ((btl ++ rest.data)).length)
          (@List.drop_left' Char (b0 :: btl) rest.data (btl.length + 1) (by simp))
      · exact (List.isPrefixOf_iff_prefix).mpr (List.prefix_append (b0 :: btl) rest.data)
    rw [hstep, removeAllFuel_of_not_contains (b0 :: btl) ((btl ++ rest.data).length) rest.data
        (by simp [List.length_append]) (hd ▸ hc)]

theorem collect_data_aux_spec {α : Type} (scrape : String → List α) (running : Nat → Bool) :
    ∀ (ds : List String) (t i : Nat) (acc : List α),
      t ≤ ds.length →
      (∀ j, i ≤ j → j < i + t → running j = true) →
      (t < ds.length → running (i + t) = false) →
      collect_data_aux scrape running ds i acc = acc ++ ((ds.take t).map scrape).flatten := by
  intro ds
  induction ds with
  | nil =>
    intro t i acc ht _ _
    have ht0 : t = 0 := Nat.le_zero.mp ht
    subst ht0
    simp [collect_data_aux]
  | cons d rest ih =>
    intro t i acc ht hrun hstop
    cases t with
    | zero =>
      have hr : running i = false := by simpa using hstop (by simp)
      simp [collect_data_aux, hr]
    | succ s =>
      have hr : running i = true := hrun i (Nat.le_refl i) (by omega)
      simp only [collect_data_aux, hr, if_true]
      rw [ih s (i + 1) (acc ++ scrape d) (by simpa using ht)
          (fun j h1 h2 => hrun j (by omega) (by omega))
          (fun h => by
            have hs := hstop (by simpa using Nat.succ_lt_succ h)
            have harith : i + (s + 1) = i + 1 + s := by omega
            rw [harith] at hs
            exact hs)]
      simp [List.append_assoc]

theorem collect_data_run_all {α : Type} (scrape : String → List α) (l : List String) :
    collect_data scrape (fun _ => true) l = (l.map scrape).flatten := by
  unfold collect_data
  rw [collect_data_aux_spec scrape (fun _ => true) l l.length 0 [] (Nat.le_refl _)
      (fun j _ _ => rfl) (fun h => absurd h (Nat.lt_irrefl _))]
  simp

theorem scrapeTablesAux_skip_unclassifiable (cfg : Config) (fetch_numbers : Bool)
    (enrich : String → String × String) (cancel : Nat → Bool) (date_str : String)
    (pre post : List HTable) (acc : List ListingRecord) (k : Nat)
    (h : ∀ t ∈ pre, classifyStep none t = none) :
    scrapeTablesAux cfg fetch_numbers enrich cancel date_str (pre ++ post) none acc k
      = scrapeTablesAux cfg fetch_numbers enrich cancel date_str post none acc k := by
  induction pre with
  | nil => rfl
  | cons t pre' ih =>
    have ht : classifyStep none t = none := h t (List.mem_cons_self t pre')
    simp only [List.cons_append, scrapeTablesAux, ht]
    exact ih (fun u hu => h u (List.mem_cons_of_mem t hu))

/-! # Claims -/

/-- C4 counterexample: the code computes
`detail_url.replace(detail_base_url, "")`, i.e. it removes EVERY occurrence
of the configured base, not only a leading prefix.  With the default base
`B`, the input `B ++ B ++ "/ygo/pack/1/2"` starts with the base, and after
stripping the prefix once (as the spec describes) the first remaining
segment is `https:`, not `ygo`, so the claimed behaviour is the empty
string — but the code removes both copies of `B` and produces a PDF
address. -/
theorem convert_detail_url_to_pdf_counterexample :
    convert_detail_url_to_pdf PMDA_DETAIL_BASE
        (PMDA_DETAIL_BASE ++ PMDA_DETAIL_BASE ++ "/ygo/pack/1/2")
      = PMDA_DETAIL_BASE ++ "/ygo/pdf/1_2/" ∧
    detailToPdf_spec PMDA_DETAIL_BASE
        (PMDA_DETAIL_BASE ++ PMDA_DETAIL_BASE ++ "/ygo/pack/1/2") = "" := by
  exact ⟨by decide, by decide⟩

/-- C4 (amended): `convert_detail_url_to_pdf` is a pure total function that
removes every occurrence of the configured base address (Python
`str.replace`) before decomposing the path; on every input in which the
base occurs only as a leading prefix — i.e. the input is the base followed
by a remainder that does not contain the base — it agrees with the spec's
strip-the-prefix description `detailToPdf_spec` (matching four-segment
`ygo/pack` paths map to the composed PDF address, everything else,
including the empty string, maps to `""`). -/
theorem convert_detail_url_spec_agreement (base rest : String)
    (hb : base ≠ "") (hc : containsS base.data rest.data = false) :
    convert_detail_url_to_pdf base (base ++ rest) = detailToPdf_spec base (base ++ rest) := by
  have hne : base ++ rest ≠ "" := by
    intro h
    apply hb
    apply String.ext
    have hdata := congrArg String.data h
    rw [String.data_append] at hdata
    exact (List.append_eq_nil.mp hdata).1
  have hpre : base.data.isPrefixOf (base ++ rest).data = true := by
    rw [String.data_append]
    exact (List.isPrefixOf_iff_prefix).mpr (List.prefix_append _ _)
  unfold convert_detail_url_to_pdf detailToPdf_spec
  rw [if_neg hne, if_neg hne, pyRemoveAll_prefix_once base rest hb hc]
  simp only [hpre, if_true]
  rw [String.data_append, List.drop_left]

theorem convert_detail_url_spec_agreement_witness :
    "https://x" ≠ "" ∧ containsS "https://x".data "/ygo/pack/1/2".data = false ∧
    convert_detail_url_to_pdf "https://x" ("https://x" ++ "/ygo/pack/1/2")
      = detailToPdf_spec "https://x" ("https://x" ++ "/ygo/pack/1/2") :=
  ⟨by decide, by decide,
   convert_detail_url_spec_agreement "https://x" "/ygo/pack/1/2" (by decide) (by decide)⟩

/-- C3: if the running flag is true at the first `k` loop-head checks and
false at check `k` (when one happens), `_collect_data` returns exactly the
concatenation, in order, of the records scraped from the first `k` dates,
and every record in the result comes from one of those first `k` dates. -/
theorem collect_data_cancellation {α : Type} (scrape : String → List α) (running : Nat → Bool)
    (dates : List String) (k : Nat) (hk : k ≤ dates.length)
    (hrun : ∀ j, j < k → running j = true) (hstop : k < dates.length → running k = false) :
    collect_data scrape running dates = ((dates.take k).map scrape).flatten ∧
    ∀ x ∈ collect_data scrape running dates, ∃ d ∈ dates.take k, x ∈ scrape d := by
  have h1 : collect_data scrape running dates = ((dates.take k).map scrape).flatten := by
    unfold collect_data
    rw [collect_data_aux_spec scrape running dates k 0 [] hk
        (fun j _ hj2 => hrun j (by omega)) (by simpa using hstop)]
    simp
  refine ⟨h1, ?_⟩
  intro x hx
  rw [h1] at hx
  obtain ⟨l, hl, hxl⟩ := List.mem_flatten.mp hx
  obtain ⟨d, hd, rfl⟩ := List.mem_map.mp hl
  exact ⟨d, hd, hxl⟩

theorem collect_data_cancellation_witness :
    2 ≤ (["2024-01-01", "2024-01-02", "2024-01-03"] : List String).length ∧
    collect_data (fun d => [d]) (fun i => decide (i < 2)) ["2024-01-01", "2024-01-02", "2024-01-03"]
      = (((["2024-01-01", "2024-01-02", "2024-01-03"] : List String).take 2).map
          (fun d => [d])).flatten :=
  ⟨by decide,
   (collect_data_cancellation (fun d => [d]) (fun i => decide (i < 2))
      ["2024-01-01", "2024-01-02", "2024-01-03"] 2 (by decide)
      (fun j hj => decide_eq_true hj) (fun _ => by decide)).1⟩

/-- C7: when the page fetch for a date raises (network or parse failure),
`scrape_date` catches it and returns the empty record list for that date,
and the surrounding date loop simply continues: the collection over
`d :: rest` equals the collection over `rest`. -/
theorem scrape_date_fetch_error_local (cfg : Config) (fetch : String → Except String Page)
    (fetch_numbers : Bool) (enrich : String → String × String) (cancel : Nat → Bool)
    (d : String) (rest : List String) (e : String)
    (h : fetch (cfg.base_url ++ pyRemoveAll "-" d) = Except.error e) :
    scrape_date cfg fetch fetch_numbers enrich cancel d = [] ∧
    collect_data (scrape_date cfg fetch fetch_numbers enrich cancel) (fun _ => true) (d :: rest)
      = collect_data (scrape_date cfg fetch fetch_numbers enrich cancel) (fun _ => true) rest := by
  have h1 : scrape_date cfg fetch fetch_numbers enrich cancel d = [] := by
    unfold scrape_date
    rw [h]
  refine ⟨h1, ?_⟩
  rw [collect_data_run_all, collect_data_run_all]
  simp [h1]

theorem scrape_date_fetch_error_local_witness :
    (fun _ : String => (Except.error "timeout" : Except String Page))
        ((⟨"b", "d"⟩ : Config).base_url ++ pyRemoveAll "-" "2024-01-15") = Except.error "timeout" ∧
    scrape_date ⟨"b", "d"⟩ (fun _ => Except.error "timeout") false (fun _ => ("", ""))
        (fun _ => true) "2024-01-15" = [] ∧
    collect_data
        (scrape_date ⟨"b", "d"⟩ (fun _ => Except.error "timeout") false (fun _ => ("", ""))
          (fun _ => true)) (fun _ => true) ["2024-01-15", "2024-01-16"]
      = collect_data
          (scrape_date ⟨"b", "d"⟩ (fun _ => Except.error "timeout") false (fun _ => ("", ""))
            (fun _ => true)) (fun _ => true) ["2024-01-16"] := by
  refine ⟨rfl, ?_, ?_⟩
  · exact (scrape_date_fetch_error_local ⟨"b", "d"⟩ (fun _ => Except.error "timeout") false
      (fun _ => ("", "")) (fun _ => true) "2024-01-15" ["2024-01-16"] "timeout" rfl).1
  · exact (scrape_date_fetch_error_local ⟨"b", "d"⟩ (fun _ => Except.error "timeout") false
      (fun _ => ("", "")) (fun _ => true) "2024-01-15" ["2024-01-16"] "timeout" rfl).2


/-- C1 counterexample: the page `c1page` has a first table under a 掲載分
heading and a second table whose nearest preceding heading (`お知らせ`)
contains neither section marker.  The claim says the second table
contributes no records; the code instead carries the running section 掲載
over from the first table, and the second table's row `P2` is emitted. -/
theorem scrape_date_section_carryover_counterexample :
    containsS "掲載分".data "お知らせ".data = false ∧
    containsS "削除分".data "お知らせ".data = false ∧
    scrape_date ⟨"b", "d"⟩ (fun _ => Except.ok c1page) false (fun _ => ("", ""))
        (fun _ => true) "2024-01-15"
      = [⟨"2024-01-15", "掲載", "P1", "C1", "R1", "", "", "", ""⟩,
         ⟨"2024-01-15", "掲載", "P2", "C2", "R2", "", "", "", ""⟩] := by
  exact ⟨by decide, by decide, by decide⟩

/-- C1 (amended): a table with no classifiable preceding heading is skipped
only while no earlier table on the page has established a running section:
the leading run of tables whose headings classify to nothing (`classifyStep
none t = none`) contributes no records and leaves no other trace, so
scraping the page equals scraping the remaining tables.  Once a
classifiable heading has been seen, its section is carried over to later
tables with unclassifiable headings (see the counterexample) — the section
is not re-derived per table. -/
theorem scrape_date_unclassifiable_prefix (cfg : Config) (fetch : String → Except String Page)
    (fetch_numbers : Bool) (enrich : String → String × String) (cancel : Nat → Bool)
    (d : String) (page : Page) (pre post : List HTable)
    (hf : fetch (cfg.base_url ++ pyRemoveAll "-" d) = Except.ok page)
    (hsplit : page.tables = pre ++ post)
    (h : ∀ t ∈ pre, classifyStep none t = none) :
    scrape_date cfg fetch fetch_numbers enrich cancel d
      = scrapeTablesAux cfg fetch_numbers enrich cancel d post none [] 0 := by
  unfold scrape_date
  rw [hf]
  show scrapeTablesAux cfg fetch_numbers enrich cancel d page.tables none [] 0 = _
  rw [hsplit]
  exact scrapeTablesAux_skip_unclassifiable cfg fetch_numbers enrich cancel d pre post [] 0 h

theorem scrape_date_unclassifiable_prefix_witness :
    (fun _ : String =>
        (Except.ok ⟨[⟨some "お知らせ", [⟨[⟨"P0", none⟩, ⟨"C0", none⟩, ⟨"R0", none⟩]⟩]⟩]⟩ :
          Except String Page))
        ((⟨"b", "d"⟩ : Config).base_url ++ pyRemoveAll "-" "2024-01-15")
      = Except.ok ⟨[⟨some "お知らせ", [⟨[⟨"P0", none⟩, ⟨"C0", none⟩, ⟨"R0", none⟩]⟩]⟩]⟩ ∧
    (∀ t ∈ [(⟨some "お知らせ", [⟨[⟨"P0", none⟩, ⟨"C0", none⟩, ⟨"R0", none⟩]⟩]⟩ : HTable)],
        classifyStep none t = none) ∧
    scrape_date ⟨"b", "d"⟩
        (fun _ => Except.ok ⟨[⟨some "お知らせ", [⟨[⟨"P0", none⟩, ⟨"C0", none⟩, ⟨"R0", none⟩]⟩]⟩]⟩)
        false (fun _ => ("", "")) (fun _ => true) "2024-01-15"
      = scrapeTablesAux ⟨"b", "d"⟩ false (fun _ => ("", "")) (fun _ => true) "2024-01-15"
          [] none [] 0 :=
  ⟨rfl, by decide,
   scrape_date_unclassifiable_prefix ⟨"b", "d"⟩
     (fun _ => Except.ok ⟨[⟨some "お知らせ", [⟨[⟨"P0", none⟩, ⟨"C0", none⟩, ⟨"R0", none⟩]⟩]⟩]⟩)
     false (fun _ => ("", "")) (fun _ => true) "2024-01-15"
     ⟨[⟨some "お知らせ", [⟨[⟨"P0", none⟩, ⟨"C0", none⟩, ⟨"R0", none⟩]⟩]⟩]⟩
     [⟨some "お知らせ", [⟨[⟨"P0", none⟩, ⟨"C0", none⟩, ⟨"R0", none⟩]⟩]⟩] []
     rfl (by simp) (by decide)⟩

theorem lookup_mem_snd :
    ∀ (r : DRow) (k : String) (v : Option String),
      r.lookup k = some v → ∃ k2, (k2, v) ∈ r := by
  intro r
  induction r with
  | nil => intro k v h; cases h
  | cons p rest ih =>
    intro k v h
    obtain ⟨k1, v1⟩ := p
    simp only [List.lookup] at h
    cases hk : k == k1 with
    | true =>
      simp only [hk] at h
      injection h with hv
      subst hv
      exact ⟨k1, List.mem_cons_self _ _⟩
    | false =>
      simp only [hk] at h
      obtain ⟨k2, hk2⟩ := ih k v h
      exact ⟨k2, List.mem_cons_of_mem _ hk2⟩

theorem dictReaderRow_isSome :
    ∀ (hs cs : List String), hs.length ≤ cs.length →
      ∀ p ∈ dictReaderRow hs cs, p.2.isSome = true := by
  intro hs
  induction hs with
  | nil => intro cs _ p hp; cases hp
  | cons h hs ih =>
    intro cs hlen p hp
    cases cs with
    | nil => simp at hlen
    | cons c cs =>
      rw [dictReaderRow] at hp
      rcases List.mem_cons.mp hp with h1 | h2
      · subst h1
        rfl
      · exact ih cs (Nat.le_of_succ_le_succ hlen) p h2

theorem pyGet_isSome (r : DRow) (k : String)
    (h : ∀ p ∈ r, p.2.isSome = true) : (pyGet r k (some "")).isSome = true := by
  unfold pyGet
  cases hl : r.lookup k with
  | none => rfl
  | some v =>
    obtain ⟨k2, hk⟩ := lookup_mem_snd r k v hl
    exact h (k2, v) hk

theorem matchRowE_ok (ap ce : Finset String) (r : DRow)
    (h1 : (pyGet r "承認番号" (some "")).isSome = true)
    (h2 : (pyGet r "認証番号" (some "")).isSome = true) :
    matchRowE ap ce r = Except.ok (rowMatchesFilter ap ce r) := by
  obtain ⟨an, han⟩ := Option.isSome_iff_exists.mp h1
  obtain ⟨cn, hcn⟩ := Option.isSome_iff_exists.mp h2
  unfold matchRowE rowMatchesFilter
  rw [han, hcn]
  rfl

theorem filterTargetsE_ok (ap ce : Finset String) :
    ∀ l : List DRow,
      (∀ r ∈ l, (pyGet r "承認番号" (some "")).isSome = true ∧
        (pyGet r "認証番号" (some "")).isSome = true) →
      filterTargetsE ap ce l = Except.ok (l.filter (rowMatchesFilter ap ce)) := by
  intro l
  induction l with
  | nil => intro _; rfl
  | cons r rest ih =>
    intro h
    have hr := h r (List.mem_cons_self r rest)
    rw [filterTargetsE, matchRowE_ok ap ce r hr.1 hr.2,
        ih (fun u hu => h u (List.mem_cons_of_mem r hu))]
    rw [List.filter_cons]

/-- C2 counterexample: with filtering enabled, a qualifying row whose
stored 承認番号 is `" A100"` (leading space, not a member of the allow set
`{"A100"}`, and with an empty 認証番号) is nevertheless selected: the code
compares the whitespace-TRIMMED value against the set, so the claim's
biconditional — membership of the row's (raw) approvalNumber — fails on
this input. -/
theorem load_and_filter_targets_trim_counterexample :
    load_and_filter_targets
        [CSV_FIELDNAMES, ["d", "掲載", "P", "C", "R", " A100", "", "", "http://x"]]
        true {"A100"} ∅
      = Except.ok
          [dictReaderRow CSV_FIELDNAMES ["d", "掲載", "P", "C", "R", " A100", "", "", "http://x"]] ∧
    " A100" ∉ ({"A100"} : Finset String) ∧
    pyGet (dictReaderRow CSV_FIELDNAMES ["d", "掲載", "P", "C", "R", " A100", "", "", "http://x"])
        "承認番号" (some "") = some " A100" ∧
    pyGet (dictReaderRow CSV_FIELDNAMES ["d", "掲載", "P", "C", "R", " A100", "", "", "http://x"])
        "認証番号" (some "") = some "" := by
  exact ⟨by decide, by decide, by decide, by decide⟩

/-- C2 (amended): for a tabular input whose data rows each have at least as
many cells as the header, `_load_and_filter_targets` succeeds and returns
exactly the rows whose 区分 equals `SECTION_LISTED` and whose `PDF_URL` is
non-empty and which — when filtering is enabled — additionally satisfy the
allow-list test on the whitespace-TRIMMED identifier values: trimmed
承認番号 non-empty and in the approval allow-set, or trimmed 認証番号
non-empty and in the certification allow-set.  Membership in the result is
exactly this conjunction. -/
theorem load_and_filter_targets_characterization (header : List String)
    (dataRows : List (List String)) (use_filter : Bool) (ap ce : Finset String)
    (hlen : ∀ cells ∈ dataRows, header.length ≤ cells.length) :
    load_and_filter_targets (header :: dataRows) use_filter ap ce
      = Except.ok ((dictReaderFile (header :: dataRows)).filter
          (fun r => basePredB r && (!use_filter || rowMatchesFilter ap ce r))) ∧
    ∀ r, r ∈ (dictReaderFile (header :: dataRows)).filter
          (fun r => basePredB r && (!use_filter || rowMatchesFilter ap ce r))
      ↔ r ∈ dictReaderFile (header :: dataRows) ∧ basePredB r = true ∧
          (use_filter = true → rowMatchesFilter ap ce r = true) := by
  constructor
  · have hsome : ∀ r ∈ (dictReaderFile (header :: dataRows)).filter basePredB,
        (pyGet r "承認番号" (some "")).isSome = true ∧
        (pyGet r "認証番号" (some "")).isSome = true := by
      intro r hr
      have hmem : r ∈ dictReaderFile (header :: dataRows) := List.mem_of_mem_filter hr
      rw [dictReaderFile] at hmem
      obtain ⟨cells, hcells, rfl⟩ := List.mem_map.mp hmem
      have hvals := dictReaderRow_isSome header cells (hlen cells hcells)
      exact ⟨pyGet_isSome _ _ hvals, pyGet_isSome _ _ hvals⟩
    unfold load_and_filter_targets
    cases use_filter with
    | false =>
      show Except.ok ((dictReaderFile (header :: dataRows)).filter basePredB) = _
      exact congrArg Except.ok (List.filter_congr (fun r _ => by simp))
    | true =>
      show filterTargetsE ap ce ((dictReaderFile (header :: dataRows)).filter basePredB) = _
      rw [filterTargetsE_ok ap ce _ hsome, List.filter_filter]
      exact congrArg Except.ok (List.filter_congr (fun r _ => by simp [Bool.and_comm]))
  · intro r
    rw [List.mem_filter]
    cases use_filter <;> simp

theorem load_and_filter_targets_characterization_witness :
    (∀ cells ∈ [["d", "掲載", "P", "C", "R", "A100", "", "", "http://x"]],
        CSV_FIELDNAMES.length ≤ cells.length) ∧
    load_and_filter_targets
        [CSV_FIELDNAMES, ["d", "掲載", "P", "C", "R", "A100", "", "", "http://x"]]
        true {"A100"} ∅
      = Except.ok
          ((dictReaderFile
              [CSV_FIELDNAMES, ["d", "掲載", "P", "C", "R", "A100", "", "", "http://x"]]).filter
            (fun r => basePredB r && (!true || rowMatchesFilter {"A100"} ∅ r))) :=
  ⟨by decide,
   (load_and_filter_targets_characterization CSV_FIELDNAMES
      [["d", "掲載", "P", "C", "R", "A100", "", "", "http://x"]] true {"A100"} ∅ (by decide)).1⟩

/-- C5: writing any list of ListingRecords through the Tabular Store
(`save_results`) and reading the file back with the header-driven
`DictReader` yields records equal to the originals on all nine fields, and
for zero records the written file is the header row alone. -/
theorem save_results_roundtrip :
    (∀ results : List ListingRecord,
        (dictReaderFile (save_results results)).map readRecord = results) ∧
    save_results [] = [CSV_FIELDNAMES] := by
  constructor
  · intro results
    induction results with
    | nil => rfl
    | cons r rest ih =>
      simp only [save_results, dictReaderFile, List.map_cons] at ih ⊢
      rw [ih]
      rfl
  · rfl

theorem foldl_pick_last (p : String → Bool) :
    ∀ (l : List String) (a : Option String),
      l.foldl (fun acc col => if p col then some col else acc) a
        = match (l.filter p).getLast? with
          | some c => some c
          | none => a := by
  intro l
  induction l with
  | nil => intro a; rfl
  | cons x l ih =>
    intro a
    rw [List.foldl_cons, ih]
    cases hp : p x with
    | true =>
      rw [List.filter_cons_of_pos hp]
      cases hf : l.filter p with
      | nil => simp [hf, hp]
      | cons y ys =>
        rw [List.getLast?_cons_cons]
        cases hgl : (y :: ys).getLast? with
        | none => simp at hgl
        | some c => rfl
    | false =>
      rw [List.filter_cons_of_neg (by simp [hp])]
      cases hf : (l.filter p).getLast? with
      | none => simp [hp]
      | some c => rfl

theorem findCol_eq_lastMatch (marker : String) (fieldnames : List String) :
    findCol marker fieldnames
      = (fieldnames.filter fun c => containsS marker.data c.data).getLast? := by
  unfold findCol
  rw [foldl_pick_last]
  cases (fieldnames.filter fun c => containsS marker.data c.data).getLast? <;> rfl

/-- C6 counterexample: a header with two approval-marker columns.  The
first matching column in header order is 承認番号1, whose value in the
single data row is "X"; the claim therefore predicts the approval set
{"X"}.  The code's scan has no break — the later match overwrites the
earlier — so the set is built from 承認番号2 and equals {"Y"}, and "X" is
not in it. -/
theorem load_hospital_device_list_first_match_counterexample :
    (["承認番号1", "承認番号2"].filter fun c => containsS "承認番号".data c.data).head?
        = some "承認番号1" ∧
    pyGet (dictReaderRow ["承認番号1", "承認番号2"] ["X", "Y"]) "承認番号1" none = some "X" ∧
    (load_hospital_device_list [["承認番号1", "承認番号2"], ["X", "Y"]]).1 = {"Y"} ∧
    "X" ∉ (load_hospital_device_list [["承認番号1", "承認番号2"], ["X", "Y"]]).1 := by
  exact ⟨by decide, by decide, by decide, by decide⟩

/-- C6 (amended): when several header names contain the approval-number (or
certification-number) marker substring, the Filter Loader builds the
corresponding identifier set from the LAST matching column in header order,
not the first: the loader coincides, on every input, with the variant whose
column selection is spelled `(header.filter …).getLast?`. -/
theorem load_hospital_device_list_last_match (fileRows : List (List String)) :
    load_hospital_device_list fileRows = load_hospital_device_list_lastCol fileRows := by
  cases fileRows with
  | nil => rfl
  | cons header dataRows =>
    simp only [load_hospital_device_list, load_hospital_device_list_lastCol,
      findCol_eq_lastMatch]

theorem mem_replaceChar (c c2 : Char) (s : String) (h : c ∈ (replaceChar c2 s).data) :
    c = '_' ∨ (c ≠ c2 ∧ c ∈ s.data) := by
  obtain ⟨a, ha, hfa⟩ := List.mem_map.mp h
  by_cases hac : a = c2
  · subst hac
    simp only [if_pos rfl] at hfa
    exact Or.inl hfa.symm
  · rw [if_neg hac] at hfa
    subst hfa
    exact Or.inr ⟨hac, ha⟩

theorem not_mem_foldl_replace (c : Char) (hc : c ≠ '_') :
    ∀ (cs : List Char) (s : String), c ∉ s.data →
      c ∉ (cs.foldl (fun acc x => replaceChar x acc) s).data := by
  intro cs
  induction cs with
  | nil => intro s h; exact h
  | cons x cs ih =>
    intro s h
    rw [List.foldl_cons]
    apply ih
    intro hmem
    rcases mem_replaceChar c x s hmem with h1 | h2
    · exact hc h1
    · exact h h2.2

theorem sanitize_removes (cs : List Char) (hcs : '_' ∉ cs) :
    ∀ c ∈ cs, ∀ (s : String), c ∉ (cs.foldl (fun acc x => replaceChar x acc) s).data := by
  induction cs with
  | nil => intro c hc; cases hc
  | cons x cs ih =>
    intro c hc s
    have hcne : c ≠ '_' := fun h => hcs (h ▸ hc)
    rw [List.foldl_cons]
    rcases List.mem_cons.mp hc with h1 | h2
    · subst h1
      apply not_mem_foldl_replace c hcne cs (replaceChar c s)
      intro hmem
      rcases mem_replaceChar c c s hmem with hh | hh
      · exact hcne hh
      · exact hh.1 rfl
    · exact ih (fun h => hcs (List.mem_cons_of_mem x h)) c h2 (replaceChar x s)

theorem sanitizeName_clean (c : Char) (hc : c ∈ INVALID_FILENAME_CHARS) (s : String) :
    c ∉ (sanitizeName s).data :=
  sanitize_removes INVALID_FILENAME_CHARS (by decide) c hc s

/-- C8 counterexample: the sanitization is applied only to the product-name
component; the document identifier extracted from the URL is used verbatim.
For the row with 販売名 `a:b` (which contains the invalid character `:`)
and PDF_URL `p:q`, the extracted identifier is `p:q` and the generated
filename `p:q_a_b.pdf` still contains `:`, contradicting the claim that the
filename contains none of the invalid characters. -/
theorem makeFilename_docid_unsanitized_counterexample :
    ':' ∈ INVALID_FILENAME_CHARS ∧
    ':' ∈ ("a:b" : String).data ∧
    extract_doc_id_from_url "p:q" = some "p:q" ∧
    makeFilename "a:b" "p:q" = "p:q_a_b.pdf" ∧
    ':' ∈ (makeFilename "a:b" "p:q").data := by
  exact ⟨by decide, by decide, by decide, by decide, by decide⟩

/-- C8 (amended): the product-name component of the generated filename is
fully sanitized — for ANY productName, the sanitized component contains
none of the nine forbidden characters — so whenever the document identifier
extracted from the row's pdfUrl itself contains none of them, the whole
generated filename contains none of them (the remaining constituents are
the literal `_` separator and the `.pdf` extension).  The identifier
component, however, is not sanitized (see the counterexample). -/
theorem makeFilename_no_invalid_chars (name doc_id : String)
    (h : ∀ c ∈ INVALID_FILENAME_CHARS, c ∉ doc_id.data) :
    ∀ c ∈ INVALID_FILENAME_CHARS, c ∉ (makeFilename name doc_id).data := by
  intro c hc
  have h1 : c ∉ doc_id.data := h c hc
  have h2 : c ∉ (sanitizeName (pyTake 10 name)).data := sanitizeName_clean c hc _
  have h3 : ∀ c2 ∈ INVALID_FILENAME_CHARS, c2 ∉ ("_" : String).data ∧ c2 ∉ PDF_EXTENSION.data := by
    decide
  have h4 := h3 c hc
  unfold makeFilename
  by_cases hs : sanitizeName (pyTake 10 name) ≠ ""
  · rw [if_pos hs]
    simp only [String.data_append, List.mem_append]
    rintro (((hh | hh) | hh) | hh)
    · exact h1 hh
    · exact h4.1 hh
    · exact h2 hh
    · exact h4.2 hh
  · rw [if_neg hs]
    simp only [String.data_append, List.mem_append]
    rintro (hh | hh)
    · exact h1 hh
    · exact h4.2 hh

theorem makeFilename_no_invalid_chars_witness :
    (∀ c ∈ INVALID_FILENAME_CHARS, c ∉ ("p1" : String).data) ∧
    ':' ∈ INVALID_FILENAME_CHARS ∧
    ':' ∉ (makeFilename "a:b" "p1").data :=
  ⟨by decide, by decide, makeFilename_no_invalid_chars "a:b" "p1" (by decide) ':' (by decide)⟩

/-- C9: the single-file download is not atomic on failure.  Concretely: a
200 response whose body stream yields one chunk "AB" and then raises
"connection reset" makes `download_file` return the Failed outcome, yet the
destination file exists with the partial content "AB"; afterwards, with
skip-existing enabled, the per-row step counts the row as Skipped and
leaves the filesystem unchanged — for EVERY possible HTTP oracle, i.e.
without re-fetching. -/
theorem download_file_partial_write_then_skipped :
    (download_file (Except.ok ⟨200, [Chunk.chunkData "AB", Chunk.chunkFail "connection reset"]⟩)
        "out/pdf/x.pdf" (fun _ => none)).1 = Except.error "connection reset" ∧
    (download_file (Except.ok ⟨200, [Chunk.chunkData "AB", Chunk.chunkFail "connection reset"]⟩)
        "out/pdf/x.pdf" (fun _ => none)).2 "out/pdf/x.pdf" = some "AB" ∧
    ∀ http : String → Except String HttpResp,
      processTarget true http
          (download_file
            (Except.ok ⟨200, [Chunk.chunkData "AB", Chunk.chunkFail "connection reset"]⟩)
            "out/pdf/x.pdf" (fun _ => none)).2 "out/pdf/x.pdf" "http://u"
        = (Outcome.skipped,
            (download_file
              (Except.ok ⟨200, [Chunk.chunkData "AB", Chunk.chunkFail "connection reset"]⟩)
              "out/pdf/x.pdf" (fun _ => none)).2) := by
  exact ⟨rfl, rfl, fun http => rfl⟩

/-- C10 counterexample: with the standard column order a data row with fewer
cells than the header necessarily lacks the trailing PDF_URL cell, so it
fails the qualification pre-filter and is silently dropped: reading the
download targets SUCCEEDS (no exception is raised) even though filtering is
enabled and the file contains a short row, and the download run proceeds. -/
theorem load_and_filter_targets_short_row_counterexample :
    (["2024-01-15", "掲載", "P"] : List String).length < CSV_FIELDNAMES.length ∧
    load_and_filter_targets [CSV_FIELDNAMES, ["2024-01-15", "掲載", "P"]] true {"A100"} {"B200"}
      = Except.ok [] := by
  exact ⟨by decide, by decide⟩

theorem matchRowE_error_iff (ap ce : Finset String) (r : DRow) :
    matchRowE ap ce r = Except.error ATTR_NONE_STRIP_ERROR
      ↔ (pyGet r "承認番号" (some "") = none ∨ pyGet r "認証番号" (some "") = none) := by
  unfold matchRowE
  cases han : pyGet r "承認番号" (some "") with
  | none => simp [pyStripE]
  | some a =>
    cases hcn : pyGet r "認証番号" (some "") with
    | none => simp [pyStripE]
    | some c => simp [pyStripE]

theorem matchRowE_error_msg (ap ce : Finset String) (r : DRow) (e : String)
    (h : matchRowE ap ce r = Except.error e) : e = ATTR_NONE_STRIP_ERROR := by
  unfold matchRowE at h
  cases han : pyGet r "承認番号" (some "") with
  | none =>
    rw [han] at h
    simp only [pyStripE, Except.error.injEq] at h
    exact h.symm
  | some a =>
    rw [han] at h
    cases hcn : pyGet r "認証番号" (some "") with
    | none =>
      rw [hcn] at h
      simp only [pyStripE, Except.error.injEq] at h
      exact h.symm
    | some c =>
      rw [hcn] at h
      simp [pyStripE] at h

theorem filterTargetsE_error_iff (ap ce : Finset String) :
    ∀ l : List DRow,
      filterTargetsE ap ce l = Except.error ATTR_NONE_STRIP_ERROR
        ↔ ∃ r ∈ l,
            pyGet r "承認番号" (some "") = none ∨ pyGet r "認証番号" (some "") = none := by
  intro l
  induction l with
  | nil => simp [filterTargetsE]
  | cons r rest ih =>
    rw [filterTargetsE]
    cases hm : matchRowE ap ce r with
    | error e =>
      have he := matchRowE_error_msg ap ce r e hm
      subst he
      constructor
      · intro _
        exact ⟨r, List.mem_cons_self r rest, (matchRowE_error_iff ap ce r).mp hm⟩
      · intro _
        rfl
    | ok keep =>
      have hr : ¬(pyGet r "承認番号" (some "") = none ∨ pyGet r "認証番号" (some "") = none) := by
        intro hd
        have herr := (matchRowE_error_iff ap ce r).mpr hd
        rw [hm] at herr
        cases herr
      cases hf : filterTargetsE ap ce rest with
      | error e2 =>
        rw [hf] at ih
        constructor
        · intro hl
          obtain ⟨r2, hmem, hd⟩ := ih.mp hl
          exact ⟨r2, List.mem_cons_of_mem r hmem, hd⟩
        · rintro ⟨r2, hmem, hd⟩
          rcases List.mem_cons.mp hmem with h1 | h2
          · exact absurd (h1 ▸ hd) hr
          · exact ih.mpr ⟨r2, h2, hd⟩
      | ok tail =>
        rw [hf] at ih
        constructor
        · intro hl
          simp at hl
        · rintro ⟨r2, hmem, hd⟩
          rcases List.mem_cons.mp hmem with h1 | h2
          · exact absurd (h1 ▸ hd) hr
          · exact absurd (ih.mpr ⟨r2, h2, hd⟩) (by simp)

/-- C10 (amended): with filtering enabled, reading the download targets
raises the `.strip()`-on-`None` exception — aborting before any download —
EXACTLY when some data row still qualifies (its 区分 cell equals 掲載 and
its PDF_URL cell is present and non-empty) while its 承認番号 cell OR its
認証番号 cell is absent, bound to the `DictReader` restval placeholder
`None` (trimming is applied to the placeholder rather than to an empty
string).  This needs a non-standard column arrangement: with the standard
order a short row loses the trailing PDF_URL cell first, fails
qualification, and is silently excluded instead (see the counterexample). -/
theorem load_and_filter_targets_none_strip_error (header : List String)
    (dataRows : List (List String)) (ap ce : Finset String) :
    load_and_filter_targets (header :: dataRows) true ap ce
        = Except.error ATTR_NONE_STRIP_ERROR
      ↔ ∃ cells ∈ dataRows,
          basePredB (dictReaderRow header cells) = true ∧
          (pyGet (dictReaderRow header cells) "承認番号" (some "") = none ∨
           pyGet (dictReaderRow header cells) "認証番号" (some "") = none) := by
  unfold load_and_filter_targets
  show filterTargetsE ap ce ((dictReaderFile (header :: dataRows)).filter basePredB)
      = Except.error ATTR_NONE_STRIP_ERROR ↔ _
  rw [filterTargetsE_error_iff]
  constructor
  · rintro ⟨r, hmem, hd⟩
    rw [List.mem_filter] at hmem
    obtain ⟨hmem2, hbase⟩ := hmem
    simp only [dictReaderFile] at hmem2
    obtain ⟨cells, hcells, rfl⟩ := List.mem_map.mp hmem2
    exact ⟨cells, hcells, hbase, hd⟩
  · rintro ⟨cells, hcells, hbase, hd⟩
    refine ⟨dictReaderRow header cells, ?_, hd⟩
    rw [List.mem_filter]
    refine ⟨?_, hbase⟩
    simp only [dictReaderFile]
    exact List.mem_map.mpr ⟨cells, hcells, rfl⟩

theorem load_and_filter_targets_none_strip_error_witness :
    basePredB (dictReaderRow ["区分", "PDF_URL", "承認番号", "認証番号"]
        ["掲載", "http://x", "A"]) = true ∧
    pyGet (dictReaderRow ["区分", "PDF_URL", "承認番号", "認証番号"] ["掲載", "http://x", "A"])
        "承認番号" (some "") = some "A" ∧
    pyGet (dictReaderRow ["区分", "PDF_URL", "承認番号", "認証番号"] ["掲載", "http://x", "A"])
        "認証番号" (some "") = none ∧
    (["掲載", "http://x", "A"] : List String).length
      < (["区分", "PDF_URL", "承認番号", "認証番号"] : List String).length ∧
    load_and_filter_targets
        [["区分", "PDF_URL", "承認番号", "認証番号"], ["掲載", "http://x", "A"]] true ∅ ∅
      = Except.error ATTR_NONE_STRIP_ERROR :=
  ⟨by decide, by decide, by decide, by decide,
   (load_and_filter_targets_none_strip_error ["区分", "PDF_URL", "承認番号", "認証番号"]
      [["掲載", "http://x", "A"]] ∅ ∅).mpr
     ⟨["掲載", "http://x", "A"], by decide, by decide, Or.inr (by decide)⟩⟩
